import Mathlib

/-!
Verification of the bounded, ignore-aware repository traversal and file
reading engine of `code_analysis.py` (classes `RepoStructureAnalyzer`,
`FileReader`, `CodeAnalysisServer` and the tool wrappers).

Shallow embedding conventions:
* A directory tree handed to the walker is an `FSEntry` value; symbolic
  links are abstract leaf entries (the walker never looks through them).
* The gitignore matcher (`pathspec` + defaults, `should_ignore`) is an
  abstract parameter `ignore : String → Bool`; the walker only ever calls
  it on repo-relative path strings, exactly as the source does.
* The recursion of `get_structure` is embedded with an explicit fuel
  argument; fuel is structural, and the public wrapper `getStructure`
  supplies `maxDepth - currentDepth + 1` fuel, which the recursion
  maintains exactly, so the "fuel exhausted" branch is unreachable from
  the wrapper.
* Machine integers are `Nat` (Python ints are unbounded; sizes/counts are
  non-negative).
* The reader's filesystem is a lookup from resolved absolute path
  segments to nodes; Python `Path.resolve()` (without symlink following,
  which the model does not need) is `resolveSegs`.
-/

/-- `Summary` dataclass of the source: aggregate counters attached to a
directory node (`file_count`, `dir_count`, `total_size`). -/
structure Summary where
  file_count : Nat := 0
  dir_count : Nat := 0
  total_size : Nat := 0
deriving Repr, DecidableEq

/-- `FileStructure` dataclass of the source: a tree node with relative
`path`, `type` (`"file"` or `"directory"`), optional byte `size`,
optional `children` and optional `summary`. -/
inductive FileStructure where
  | node (path : String) (type : String) (size : Option Nat)
      (children : Option (List FileStructure)) (summary : Option Summary)
deriving Repr

def FileStructure.path : FileStructure → String
  | .node p _ _ _ _ => p

def FileStructure.type : FileStructure → String
  | .node _ t _ _ _ => t

def FileStructure.size : FileStructure → Option Nat
  | .node _ _ s _ _ => s

def FileStructure.children : FileStructure → Option (List FileStructure)
  | .node _ _ _ c _ => c

def FileStructure.summary : FileStructure → Option Summary
  | .node _ _ _ _ s => s

/-- A filesystem subtree as seen by `RepoStructureAnalyzer.get_structure`
via `Path.iterdir` / `is_file` / `is_dir` / `is_symlink` / `stat`.
A symlink entry is abstract: the source skips (or rejects) every symlink
without looking at its target. -/
inductive FSEntry where
  | file (name : String) (size : Nat)
  | dir (name : String) (entries : List FSEntry)
  | symlink (name : String)
deriving Repr

def FSEntry.name : FSEntry → String
  | .file n _ => n
  | .dir n _ => n
  | .symlink n => n

def FSEntry.isSymlink : FSEntry → Bool
  | .symlink _ => true
  | _ => false

/-- `str(entry.relative_to(self.repo_path))` for an entry of the directory
whose own repo-relative path is `parentRel` (`""` for the repository
root, as in the source's default `relative_path=''`). -/
def childRel (parentRel name : String) : String :=
  if parentRel = "" then name else parentRel ++ "/" ++ name

/-- `rel_path = relative_path or current_path.name` (line 125): Python
`or` takes the name when the relative path is the empty string. -/
def relOr (relPath name : String) : String :=
  if relPath = "" then name else relPath

/-- The per-entry counter updates of the loop (lines 147-151 and 165-169):
a file bumps `file_count` and `total_size`, a directory bumps
`dir_count`, a symlink changes nothing (the cap branch tests
`not entry.is_symlink()`, the expanded branch has already skipped
symlinks). -/
def countEntry (summary : Summary) : FSEntry → Summary
  | .file _ sz =>
      { summary with file_count := summary.file_count + 1,
                     total_size := summary.total_size + sz }
  | .dir _ _ => { summary with dir_count := summary.dir_count + 1 }
  | .symlink _ => summary

/-- The `for entry in entries` loop of `get_structure` (lines 145-181),
with the recursive call abstracted as `recur` (the caller passes the
fuel-indexed recursion at `current_depth + 1`).  State is the
`children` accumulator and the running `summary`.  Branches, in source
order: width cap reached → count by type, skip; excluded → skip;
symlink → skip; otherwise count, recurse, append (an exception from the
recursive call is caught and the entry merely not appended). -/
def walkEntriesAux (ignore : String → Bool) (maxC : Nat) (parentRel : String)
    (recur : FSEntry → String → Except String FileStructure) :
    List FSEntry → List FileStructure → Summary → List FileStructure × Summary
  | [], children, summary => (children, summary)
  | entry :: rest, children, summary =>
    if maxC ≤ children.length then
      walkEntriesAux ignore maxC parentRel recur rest children (countEntry summary entry)
    else
      let entryRel := childRel parentRel entry.name
      if ignore entryRel then
        walkEntriesAux ignore maxC parentRel recur rest children summary
      else if entry.isSymlink then
        walkEntriesAux ignore maxC parentRel recur rest children summary
      else
        match recur entry entryRel with
        | .ok child =>
            walkEntriesAux ignore maxC parentRel recur rest (children ++ [child])
              (countEntry summary entry)
        | .error _ =>
            walkEntriesAux ignore maxC parentRel recur rest children (countEntry summary entry)

/-- Fuel-indexed embedding of `RepoStructureAnalyzer.get_structure`
(lines 105-193).  `ignore` is `self.should_ignore`, `maxC` is
`self.MAX_CHILDREN`.  Checks in source order: a symlink target is a
hard error (line 121); a non-empty relative path matching the ruleset is
a hard error (line 127); a file yields a leaf with its size (line 130);
a directory is expanded only when `current_depth < max_depth`
(line 141), its `children` become `None` when empty (line 189) and its
`summary` is attached exactly when the depth limit or the width cap was
hit (line 190).  The Python error strings interpolate the absolute
`current_path`; the model carries the entry name instead (no claim
inspects these messages), and the `_is_safe_path` re-check of line 117
is omitted: every path the model walks lies under the root by
construction. -/
def getStructureF (ignore : String → Bool) (maxC : Nat) :
    Nat → FSEntry → String → Nat → Nat → Except String FileStructure
  | 0, _, _, _, _ => .error "recursion fuel exhausted"
  | fuel + 1, e, relPath, currentDepth, maxDepth =>
    match e with
    | .symlink name => .error ("Symbolic links are not supported: " ++ name)
    | .file name size =>
      if relPath ≠ "" ∧ ignore relPath = true then
        .error ("Path " ++ relPath ++ " is ignored")
      else
        .ok (.node (relOr relPath name) "file" (some size) none none)
    | .dir name entries =>
      if relPath ≠ "" ∧ ignore relPath = true then
        .error ("Path " ++ relPath ++ " is ignored")
      else
        let cs :=
          if currentDepth < maxDepth then
            walkEntriesAux ignore maxC relPath
              (fun entry entryRel =>
                getStructureF ignore maxC fuel entry entryRel (currentDepth + 1) maxDepth)
              entries [] {}
          else ([], {})
        .ok (.node (relOr relPath name) "directory" none
              (if cs.1.isEmpty then none else some cs.1)
              (if maxDepth ≤ currentDepth ∨ maxC ≤ cs.1.length then some cs.2 else none))

/-- `get_structure` itself.  The recursion of the source only descends
while `current_depth < max_depth`, so its depth is bounded by
`maxDepth - currentDepth`; fuel `maxDepth - currentDepth + 1` is
exactly maintained by every recursive call (`maxDepth - d + 1 - 1 =
maxDepth - (d + 1) + 1` when `d < maxDepth`), hence the fuel-exhausted
branch is unreachable from this wrapper. -/
def getStructure (ignore : String → Bool) (maxC : Nat) (e : FSEntry)
    (relPath : String) (currentDepth maxDepth : Nat) : Except String FileStructure :=
  getStructureF ignore maxC (maxDepth - currentDepth + 1) e relPath currentDepth maxDepth

/-- The children list of a node (`[]` when the field is `None`). -/
def childrenList (n : FileStructure) : List FileStructure :=
  n.children.getD []

/-- All nodes of a result tree paired with their depth (root at `k`),
reached through `children` fields only; `fuel` bounds the descent, and
every pair returned at any fuel is a genuine node of the tree. -/
def nodesDF : Nat → Nat → FileStructure → List (Nat × FileStructure)
  | 0, _, _ => []
  | fuel + 1, k, n => (k, n) :: (childrenList n).flatMap (nodesDF fuel (k + 1))

/-- The unit table of `format_size` (line 71). -/
def fmtUnits : List String := ["B", "KB", "MB", "GB"]

/-- The `while value >= 1024 and index < len(units) - 1` loop of
`format_size` (lines 74-76).  At every iteration the float `value` is
exactly `size / 1024 ^ index` (repeated division of an integer by 1024
is exact in this range), so the loop only needs to determine the final
`index`: the guard `value >= 1024` is `size >= 1024 ^ (index + 1)`, and
`index < 3` is `index < len(units) - 1`.  The body can run at most 3
times because `index` increments under that guard, so fuel 3 gives the
exact loop semantics. -/
def fmtIndexF : Nat → Nat → Nat → Nat
  | 0, _, index => index
  | fuel + 1, size, index =>
    if 1024 ^ (index + 1) ≤ size ∧ index < 3 then fmtIndexF fuel size (index + 1)
    else index

/-- Python's `f"{value:.1f}"` for the exact non-negative value
`size / 1024 ^ index`: one decimal digit, rounding the exact value to
the nearest tenth with ties to even (the rounding CPython applies to an
exactly-representable float).  With `q10 = 10 * size` and
`d = 1024 ^ index`, the value times ten is `q10 / d` with remainder
`r`, and the tie `2 * r = d` goes to the even neighbour. -/
def fmtOneDecAt (size index : Nat) : String :=
  let d := 1024 ^ index
  let q10 := 10 * size
  let n0 := q10 / d
  let r := q10 % d
  let n :=
    if 2 * r < d then n0
    else if d < 2 * r then n0 + 1
    else if n0 % 2 = 0 then n0 else n0 + 1
  toString (n / 10) ++ "." ++ toString (n % 10)

/-- `format_size` (lines 70-77): binary-1024 scaling with one decimal
place and a unit from `fmtUnits` (`index` never exceeds 3, so the
`getD` default is unreachable). -/
def format_size (size : Nat) : String :=
  let index := fmtIndexF 3 size 0
  fmtOneDecAt size index ++ " " ++ fmtUnits.getD index "B"

/-- `'  ' * level`. -/
def indentOf (level : Nat) : String :=
  String.join (List.replicate level "  ")

/-- `format_item` (lines 79-96).  A directory line is always emitted;
then, if the node has a `summary` (a `Summary` instance is always truthy
in Python), only the `Contains:` line follows — the `elif` never renders
`children` in that case; otherwise a non-empty `children` list is
rendered recursively one level deeper.  A file renders one line with its
formatted size (`item.size or 0`).  The two marker strings are the exact
characters found in the source file (a mojibake-encoded folder/page
marker). -/
def formatItem (item : FileStructure) (level : Nat) : List String :=
  match item with
  | .node p t sz c sm =>
    let indent := indentOf level
    if t = "directory" then
      (indent ++ "ðŸ“ " ++ p ++ "/") ::
      (match sm with
       | some summary =>
           [indent ++ "   Contains: " ++ toString summary.file_count ++ " files, "
              ++ toString summary.dir_count ++ " directories, "
              ++ format_size summary.total_size]
       | none =>
         match c with
         | some chs =>
             if chs.isEmpty then []
             else chs.attach.flatMap (fun x => formatItem x.1 (level + 1))
         | none => [])
    else [indent ++ "ðŸ“„ " ++ p ++ " (" ++ format_size (sz.getD 0) ++ ")"]
termination_by sizeOf item
decreasing_by
  have h1 := List.sizeOf_lt_of_mem x.2
  simp only [FileStructure.node.sizeOf_spec, Option.some.sizeOf_spec]
  omega

/-- `format_structure` (lines 66-99): render the root at level 0 and
join with newlines. -/
def format_structure (s : FileStructure) : String :=
  String.intercalate "\n" (formatItem s 0)

/-! ### Paths as seen by `FileReader` and `CodeAnalysisServer` -/

/-- Split a character list at every occurrence of `sep` (the semantics of
`String.splitOn` for a one-character separator, spelled out over the
character list so that it evaluates by kernel reduction). -/
def splitChars (sep : Char) : List Char → List (List Char)
  | [] => [[]]
  | c :: cs =>
    let r := splitChars sep cs
    if c = sep then [] :: r
    else
      match r with
      | [] => [[c]]
      | h :: t => (c :: h) :: t

/-- Character-wise `String.toLower`. -/
def lowerStr (s : String) : String :=
  String.mk (s.toList.map Char.toLower)

/-- `path.startswith('/')` — pathlib absoluteness on POSIX. -/
def startsWithSlash (p : String) : Bool :=
  match p.toList with
  | '/' :: _ => true
  | _ => false

/-- Split a path string into its non-empty components (pathlib drops
empty components produced by repeated separators); `"."` and `".."`
components are kept and handled by `resolveSegs`. -/
def splitSegs (p : String) : List String :=
  ((splitChars '/' p.toList).map String.mk).filter (fun s => s ≠ "")

/-- `Path.resolve()` on an absolute segment list: drop `"."`, let `".."`
pop the last segment (at the root, `/..` stays the root, as in POSIX).
Symlink indirection is outside the model (the reader rejects symlink
targets before opening them). -/
def resolveSegs (segs : List String) : List String :=
  segs.foldl
    (fun acc s => if s = "." then acc else if s = ".." then acc.dropLast else acc ++ [s]) []

/-- `self.repo_path / file_path` (pathlib `/`): an absolute right operand
replaces the left one, a relative one is appended. -/
def joinPath (repo : List String) (p : String) : List String :=
  if startsWithSlash p then splitSegs p else repo ++ splitSegs p

/-- A file as the reader sees it: byte size from `stat`, the lines the
line iterator yields (already `rstrip('\n')`-ed), and whether decoding
as UTF-8 fails (raising `UnicodeDecodeError`). -/
structure RFile where
  size : Nat
  lines : List String
  binary : Bool
deriving Repr, DecidableEq

/-- A filesystem node for path lookups: regular file, directory, or
symlink (to an existing target; a broken symlink is simply absent, which
matches `Path.exists()` following links). -/
inductive FsNode where
  | file (f : RFile)
  | dir
  | symlink
deriving Repr, DecidableEq

/-- A filesystem for the reader/initializer: lookup from resolved
absolute path segments to a node. -/
def FS := List String → Option FsNode

/-! ### `FileReader._detect_language` (lines 201-286) -/

/-- The extension → language table of `_detect_language`, copied entry
for entry. -/
def language_map : List (String × String) :=
  [(".py", "python"), (".js", "javascript"), (".jsx", "javascript"),
   (".ts", "typescript"), (".tsx", "typescript"), (".java", "java"),
   (".cpp", "cpp"), (".cc", "cpp"), (".hpp", "cpp"), (".c", "c"),
   (".h", "c"), (".cs", "csharp"), (".rb", "ruby"), (".php", "php"),
   (".go", "go"), (".rs", "rust"), (".swift", "swift"), (".kt", "kotlin"),
   (".scala", "scala"), (".m", "objective-c"), (".mm", "objective-c"),
   (".html", "html"), (".htm", "html"), (".css", "css"), (".scss", "scss"),
   (".sass", "scss"), (".less", "less"), (".vue", "vue"),
   (".svelte", "svelte"), (".json", "json"), (".xml", "xml"),
   (".yaml", "yaml"), (".yml", "yaml"), (".toml", "toml"), (".ini", "ini"),
   (".conf", "config"), (".md", "markdown"), (".markdown", "markdown"),
   (".rst", "restructuredtext"), (".tex", "latex"), (".sh", "shell"),
   (".bash", "shell"), (".zsh", "shell"), (".fish", "shell"),
   (".bat", "batch"), (".cmd", "batch"), (".ps1", "powershell"),
   (".sql", "sql"), (".r", "r"), (".gradle", "gradle"),
   (".dockerfile", "dockerfile"), (".env", "env"), (".gitignore", "gitignore")]

/-- The extensionless-filename table of `_detect_language`. -/
def name_map : List (String × String) :=
  [("dockerfile", "dockerfile"), ("makefile", "makefile"),
   ("jenkinsfile", "jenkinsfile"), ("vagrantfile", "ruby"),
   (".env", "env"), (".gitignore", "gitignore")]

/-- `Path(file_path).name`: the final component (never `"."` / `".."` /
empty). -/
def pyBasename (p : String) : String :=
  ((((splitChars '/' p.toList).map String.mk).filter
      (fun s => s ≠ "" ∧ s ≠ "." ∧ s ≠ "..")).getLast?).getD ""

/-- `Path(file_path).suffix`: the final component's extension from its
last dot, empty unless that dot is neither leading nor trailing. -/
def pySuffix (p : String) : String :=
  let name := (pyBasename p).toList
  let dots := (List.range name.length).filter (fun i => name.getD i ' ' = '.')
  match dots.getLast? with
  | some i => if 0 < i ∧ i + 1 < name.length then String.mk (name.drop i) else ""
  | none => ""

/-- `_detect_language` (lines 201-286): static extension lookup, with a
well-known-filename fallback for extensionless names and `"text"` as the
default tag. -/
def detect_language (file_path : String) : String :=
  let ext := lowerStr (pySuffix file_path)
  if ext = "" then
    (name_map.lookup (lowerStr (pyBasename file_path))).getD "text"
  else
    (language_map.lookup ext).getD "text"

/-! ### `FileReader.read_file` (lines 288-384) -/

/-- The result dictionary of `FileReader.read_file`: the single text
block and the `isError` flag (absent, i.e. `false`, on success). -/
structure ReadResult where
  text : String
  isError : Bool
deriving Repr, DecidableEq

/-- `FileReader.read_file` (lines 288-384), with `MAX_SIZE = 1048576`
and `MAX_LINES = 1000`.  Checks in source order: containment of the
resolved path under the resolved root; existence; symlink; size cap;
then the read, where a binary file raises `UnicodeDecodeError` (caught
into an error result) and a directory target raises `IsADirectoryError`
from `open` (caught by the generic handler; the OS-supplied message text
is abstracted here).  The line loop keeps the first 1000 lines and
stops counting at 1001; on truncation the notice naming the limit is
appended.  The whole body is wrapped in try/except, so the function
always returns a result and never raises. -/
def read_file (fs : FS) (repo : List String) (file_path : String) : ReadResult :=
  let fullR := resolveSegs (joinPath repo file_path)
  if (resolveSegs repo).isPrefixOf fullR = false then
    ⟨"Error: Attempted to access file outside repository: " ++ file_path, true⟩
  else
    match fs fullR with
    | none => ⟨"File " ++ file_path ++ " not found", true⟩
    | some .symlink => ⟨"Error: Symbolic links are not supported: " ++ file_path, true⟩
    | some .dir => ⟨"Error reading file: <IsADirectoryError text>", true⟩
    | some (.file f) =>
      if 1048576 < f.size then
        ⟨"File " ++ file_path ++ " is too large (" ++ toString f.size ++
          " bytes). Maximum size is 1048576 bytes.", true⟩
      else if f.binary then
        ⟨"Error: File " ++ file_path ++ " appears to be a binary file", true⟩
      else
        let lineCount := min f.lines.length (1000 + 1)
        let body := String.intercalate "\n" (f.lines.take 1000)
        let content :=
          if 1000 < f.lines.length then body ++ "\n\n[File truncated after 1000 lines]"
          else body
        ⟨"File: " ++ file_path ++ "\nLanguage: " ++ detect_language file_path ++
          "\nSize: " ++ toString f.size ++ " bytes\nTotal lines: " ++ toString lineCount ++
          "\n\n" ++ content, false⟩

/-- The `read_file` tool wrapper (lines 480-503): an exclusion-ruleset
match short-circuits to the "ignored" message before any read; otherwise
the reader's text block is returned whether or not it is an error. -/
def readFileTool (ignore : String → Bool) (fs : FS) (repo : List String)
    (file_path : String) : String :=
  if ignore file_path then
    "File " ++ file_path ++ " is ignored based on .gitignore patterns"
  else (read_file fs repo file_path).text

/-! ### `CodeAnalysisServer.initialize_repo` (lines 403-418) -/

/-- A `pathlib.Path` as far as `initialize_repo` observes one: whether it
is absolute, and its resolved segments.  `Path(path).resolve()` always
returns an absolute path (a relative input is resolved against the
working directory), which is why the model records `absolute`
explicitly: the source's `is_absolute()` test runs after `resolve()`. -/
structure PyPath where
  absolute : Bool
  segs : List String
deriving Repr, DecidableEq

/-- `Path(path).resolve()` given the process working directory `cwd`
(absolute, already resolved). -/
def pyResolve (cwd : List String) (path : String) : PyPath :=
  ⟨true, if startsWithSlash path then resolveSegs (splitSegs path)
         else resolveSegs (cwd ++ splitSegs path)⟩

/-- Render resolved absolute segments the way an interpolated
`pathlib.Path` prints. -/
def showSegs (segs : List String) : String :=
  "/" ++ String.intercalate "/" segs

/-- `initialize_repo` (lines 403-418): reject falsy/`.`/`./` inputs,
resolve, then test absoluteness (dead after `resolve()`), existence and
directory-ness; on success the resolved path becomes the repository
root. -/
def initialize_repo (fs : FS) (cwd : List String) (path : String) :
    Except String PyPath :=
  if path = "" ∨ path = "." ∨ path = "./" then
    .error "Repository path must be an absolute path"
  else
    let repo := pyResolve cwd path
    if repo.absolute = false then
      .error ("Repository path must be absolute, got: " ++ showSegs repo.segs)
    else if (fs repo.segs).isNone then
      .error ("Repository path does not exist: " ++ showSegs repo.segs)
    else if fs repo.segs ≠ some .dir then
      .error ("Repository path is not a directory: " ++ showSegs repo.segs)
    else .ok repo

/-! ### Specification-side view of the entry loop -/

/-- An entry qualifies (is neither excluded nor a symlink) relative to
the repo-relative path of its parent directory. -/
def entryQual (ignore : String → Bool) (parentRel : String) (e : FSEntry) : Bool :=
  !(ignore (childRel parentRel e.name)) && !e.isSymlink

/-- The counts one entry contributes: a file is one file plus its bytes,
a directory is one directory, a symlink contributes nothing. -/
def entryCounts : FSEntry → Summary
  | .file _ sz => ⟨1, 0, sz⟩
  | .dir _ _ => ⟨0, 1, 0⟩
  | .symlink _ => ⟨0, 0, 0⟩

/-- Componentwise sum of summaries. -/
def addS (a b : Summary) : Summary :=
  ⟨a.file_count + b.file_count, a.dir_count + b.dir_count, a.total_size + b.total_size⟩

/-- Total counts of an entry list. -/
def sumCounts (es : List FSEntry) : Summary :=
  es.foldr (fun e acc => addS (entryCounts e) acc) ⟨0, 0, 0⟩

/-- Split an entry list at the point where the `k`-th qualifying entry
has been processed: the loop of `get_structure` applies the
exclusion/symlink/recursion treatment to the first part and the
width-cap counting branch to the second. -/
def capSplit (q : FSEntry → Bool) : Nat → List FSEntry → List FSEntry × List FSEntry
  | _, [] => ([], [])
  | 0, es => ([], es)
  | k + 1, e :: rest =>
    let r := capSplit q (if q e then k else k + 1) rest
    (e :: r.1, r.2)

theorem addS_zero (s : Summary) : addS s ⟨0, 0, 0⟩ = s := by
  cases s; simp [addS]

theorem zero_addS (s : Summary) : addS ⟨0, 0, 0⟩ s = s := by
  cases s; simp [addS]

theorem addS_assoc (a b c : Summary) : addS (addS a b) c = addS a (addS b c) := by
  cases a; cases b; cases c; simp [addS, Nat.add_assoc]

theorem countEntry_eq_addS (s : Summary) (e : FSEntry) :
    countEntry s e = addS s (entryCounts e) := by
  cases e <;> cases s <;> simp [countEntry, entryCounts, addS]

theorem sumCounts_cons (e : FSEntry) (es : List FSEntry) :
    sumCounts (e :: es) = addS (entryCounts e) (sumCounts es) := rfl

/-! ### Step equations for the entry loop -/

theorem walk_nil (ignore : String → Bool) (maxC : Nat) (parentRel : String)
    (recur : FSEntry → String → Except String FileStructure)
    (acc : List FileStructure) (sum : Summary) :
    walkEntriesAux ignore maxC parentRel recur [] acc sum = (acc, sum) := rfl

theorem walk_cons_cap (ignore : String → Bool) (maxC : Nat) (parentRel : String)
    (recur : FSEntry → String → Except String FileStructure)
    (e : FSEntry) (rest : List FSEntry) (acc : List FileStructure) (sum : Summary)
    (h : maxC ≤ acc.length) :
    walkEntriesAux ignore maxC parentRel recur (e :: rest) acc sum =
      walkEntriesAux ignore maxC parentRel recur rest acc (countEntry sum e) := by
  simp [walkEntriesAux, h]

theorem walk_cons_ignored (ignore : String → Bool) (maxC : Nat) (parentRel : String)
    (recur : FSEntry → String → Except String FileStructure)
    (e : FSEntry) (rest : List FSEntry) (acc : List FileStructure) (sum : Summary)
    (h : ¬ maxC ≤ acc.length) (hig : ignore (childRel parentRel e.name) = true) :
    walkEntriesAux ignore maxC parentRel recur (e :: rest) acc sum =
      walkEntriesAux ignore maxC parentRel recur rest acc sum := by
  simp [walkEntriesAux, h, hig]

theorem walk_cons_symlink (ignore : String → Bool) (maxC : Nat) (parentRel : String)
    (recur : FSEntry → String → Except String FileStructure)
    (e : FSEntry) (rest : List FSEntry) (acc : List FileStructure) (sum : Summary)
    (h : ¬ maxC ≤ acc.length) (hig : ignore (childRel parentRel e.name) = false)
    (hsl : e.isSymlink = true) :
    walkEntriesAux ignore maxC parentRel recur (e :: rest) acc sum =
      walkEntriesAux ignore maxC parentRel recur rest acc sum := by
  simp [walkEntriesAux, h, hig, hsl]

theorem walk_cons_ok (ignore : String → Bool) (maxC : Nat) (parentRel : String)
    (recur : FSEntry → String → Except String FileStructure)
    (e : FSEntry) (rest : List FSEntry) (acc : List FileStructure) (sum : Summary)
    (c : FileStructure)
    (h : ¬ maxC ≤ acc.length) (hig : ignore (childRel parentRel e.name) = false)
    (hsl : e.isSymlink = false)
    (hok : recur e (childRel parentRel e.name) = .ok c) :
    walkEntriesAux ignore maxC parentRel recur (e :: rest) acc sum =
      walkEntriesAux ignore maxC parentRel recur rest (acc ++ [c]) (countEntry sum e) := by
  simp [walkEntriesAux, h, hig, hsl, hok]

theorem walk_cons_error (ignore : String → Bool) (maxC : Nat) (parentRel : String)
    (recur : FSEntry → String → Except String FileStructure)
    (e : FSEntry) (rest : List FSEntry) (acc : List FileStructure) (sum : Summary)
    (msg : String)
    (h : ¬ maxC ≤ acc.length) (hig : ignore (childRel parentRel e.name) = false)
    (hsl : e.isSymlink = false)
    (herr : recur e (childRel parentRel e.name) = .error msg) :
    walkEntriesAux ignore maxC parentRel recur (e :: rest) acc sum =
      walkEntriesAux ignore maxC parentRel recur rest acc (countEntry sum e) := by
  simp [walkEntriesAux, h, hig, hsl, herr]

/-- The `children` accumulator never grows beyond the width cap. -/
theorem walk_length_le (ignore : String → Bool) (maxC : Nat) (parentRel : String)
    (recur : FSEntry → String → Except String FileStructure) :
    ∀ (es : List FSEntry) (acc : List FileStructure) (sum : Summary),
      acc.length ≤ maxC →
      (walkEntriesAux ignore maxC parentRel recur es acc sum).1.length ≤ maxC := by
  intro es
  induction es with
  | nil => intro acc sum h; simpa [walk_nil] using h
  | cons e rest ih =>
    intro acc sum h
    by_cases hc : maxC ≤ acc.length
    · rw [walk_cons_cap _ _ _ _ _ _ _ _ hc]; exact ih acc _ h
    · have hlt : acc.length < maxC := Nat.lt_of_not_le hc
      cases hig : ignore (childRel parentRel e.name) with
      | true => rw [walk_cons_ignored _ _ _ _ _ _ _ _ hc hig]; exact ih acc sum h
      | false =>
        cases hsl : e.isSymlink with
        | true => rw [walk_cons_symlink _ _ _ _ _ _ _ _ hc hig hsl]; exact ih acc sum h
        | false =>
          cases hrec : recur e (childRel parentRel e.name) with
          | ok c =>
            rw [walk_cons_ok _ _ _ _ _ _ _ _ _ hc hig hsl hrec]
            exact ih _ _ (by simpa using hlt)
          | error msg =>
            rw [walk_cons_error _ _ _ _ _ _ _ _ _ hc hig hsl hrec]
            exact ih acc _ h

/-- Every element of the final `children` list either was already in the
accumulator or is the successful recursion result of a qualifying
(non-excluded, non-symlink) entry of the list. -/
theorem walk_mem_source (ignore : String → Bool) (maxC : Nat) (parentRel : String)
    (recur : FSEntry → String → Except String FileStructure) :
    ∀ (es : List FSEntry) (acc : List FileStructure) (sum : Summary)
      (c : FileStructure),
      c ∈ (walkEntriesAux ignore maxC parentRel recur es acc sum).1 →
      c ∈ acc ∨ ∃ e ∈ es, e.isSymlink = false ∧
        ignore (childRel parentRel e.name) = false ∧
        recur e (childRel parentRel e.name) = .ok c := by
  intro es
  induction es with
  | nil => intro acc sum c hm; exact .inl (by simpa [walk_nil] using hm)
  | cons e rest ih =>
    intro acc sum c hm
    have weaken :
        c ∈ acc ∨ (∃ x ∈ rest, x.isSymlink = false ∧
            ignore (childRel parentRel x.name) = false ∧
            recur x (childRel parentRel x.name) = .ok c) →
          c ∈ acc ∨ ∃ x ∈ e :: rest, x.isSymlink = false ∧
            ignore (childRel parentRel x.name) = false ∧
            recur x (childRel parentRel x.name) = .ok c := by
      rintro (h | ⟨x, hx, hrest⟩)
      · exact .inl h
      · exact .inr ⟨x, List.mem_cons_of_mem _ hx, hrest⟩
    by_cases hc : maxC ≤ acc.length
    · rw [walk_cons_cap _ _ _ _ _ _ _ _ hc] at hm
      exact weaken (ih acc _ c hm)
    · cases hig : ignore (childRel parentRel e.name) with
      | true =>
        rw [walk_cons_ignored _ _ _ _ _ _ _ _ hc hig] at hm
        exact weaken (ih acc sum c hm)
      | false =>
        cases hsl : e.isSymlink with
        | true =>
          rw [walk_cons_symlink _ _ _ _ _ _ _ _ hc hig hsl] at hm
          exact weaken (ih acc sum c hm)
        | false =>
          cases hrec : recur e (childRel parentRel e.name) with
          | ok c0 =>
            rw [walk_cons_ok _ _ _ _ _ _ _ _ _ hc hig hsl hrec] at hm
            rcases ih _ _ c hm with hacc | hxs
            · rcases List.mem_append.mp hacc with h | h
              · exact .inl h
              · have : c = c0 := by simpa using h
                subst this
                exact .inr ⟨e, List.mem_cons_self e rest, hsl, hig, hrec⟩
            · exact weaken (.inr hxs)
          | error msg =>
            rw [walk_cons_error _ _ _ _ _ _ _ _ _ hc hig hsl hrec] at hm
            exact weaken (ih acc _ c hm)

/-- On a non-symlink, non-excluded target the walker never fails (a file
or a directory target always produces a node, whatever happens inside
the directory's entry loop). -/
theorem getStructureF_isOk (ignore : String → Bool) (maxC : Nat)
    (fuel : Nat) (e : FSEntry) (relPath : String) (currentDepth maxDepth : Nat)
    (hf : 1 ≤ fuel) (hsl : e.isSymlink = false) (hig : ignore relPath = false) :
    ∃ r, getStructureF ignore maxC fuel e relPath currentDepth maxDepth = .ok r := by
  cases fuel with
  | zero => omega
  | succ fuel =>
    cases e with
    | symlink nm => simp [FSEntry.isSymlink] at hsl
    | file nm sz =>
      have hcond : ¬(relPath ≠ "" ∧ ignore relPath = true) := by simp [hig]
      exact ⟨_, by rw [getStructureF, if_neg hcond]⟩
    | dir nm entries =>
      have hcond : ¬(relPath ≠ "" ∧ ignore relPath = true) := by simp [hig]
      exact ⟨_, by rw [getStructureF, if_neg hcond]⟩

/-- The `path` of any node the walker returns is
`relative_path or name`. -/
theorem getStructureF_ok_path (ignore : String → Bool) (maxC : Nat)
    (fuel : Nat) (e : FSEntry) (relPath : String) (currentDepth maxDepth : Nat)
    (r : FileStructure)
    (h : getStructureF ignore maxC fuel e relPath currentDepth maxDepth = .ok r) :
    r.path = relOr relPath e.name := by
  cases fuel with
  | zero => simp [getStructureF] at h
  | succ fuel =>
    cases e with
    | symlink nm => simp [getStructureF] at h
    | file nm sz =>
      rw [getStructureF] at h
      split at h
      · cases h
      · cases h; rfl
    | dir nm entries =>
      rw [getStructureF] at h
      split at h
      · cases h
      · cases h; rfl

/-- `rel_path = relative_path or name` collapses to the relative path
itself when the relative path was built by `childRel` (it can only be
empty when both components are, in which case the two sides agree). -/
theorem relOr_childRel (parentRel name : String) :
    relOr (childRel parentRel name) name = childRel parentRel name := by
  by_cases hp : parentRel = ""
  · simp [childRel, relOr, hp]
  · have hne : childRel parentRel name ≠ "" := by
      intro hq
      rw [childRel, if_neg hp] at hq
      have hlen := congrArg String.length hq
      have h1 : ("/" : String).length = 1 := rfl
      simp [String.length_append, h1] at hlen
    simp [relOr, hne]

/-- Membership in the optional children list produced at line 189. -/
theorem mem_optChildren {l : List FileStructure} {c : FileStructure}
    (h : c ∈ (if l.isEmpty then (none : Option (List FileStructure)) else some l).getD []) :
    c ∈ l := by
  by_cases he : l.isEmpty = true
  · simp [he] at h
  · simpa [he] using h

/-- The structural invariant of every node of a walker result at depth
`k`: the depth never exceeds the cap; a directory exactly at the depth
cap has no children and a zero summary; a node with both `children` and
`summary` populated has exactly `maxC` children (the width cap was hit);
and no child of any node has an excluded path. -/
def nodeOK (ignore : String → Bool) (maxC maxDepth k : Nat) (n : FileStructure) : Prop :=
  k ≤ maxDepth ∧
  (n.type = "directory" → k = maxDepth → n.children = none ∧ n.summary = some ⟨0, 0, 0⟩) ∧
  (∀ cs s, n.children = some cs → n.summary = some s → cs.length = maxC) ∧
  (∀ cs, n.children = some cs → ∀ c ∈ cs, ignore c.path = false)

/-- Main structural invariant: every node of a successful walk, at its
depth, satisfies `nodeOK`. -/
theorem getStructureF_inv (ignore : String → Bool) (maxC : Nat) :
    ∀ (fuel : Nat) (e : FSEntry) (relPath : String) (currentDepth maxDepth : Nat)
      (r : FileStructure),
      currentDepth ≤ maxDepth →
      getStructureF ignore maxC fuel e relPath currentDepth maxDepth = .ok r →
      ∀ (fuel2 k : Nat) (n : FileStructure), (k, n) ∈ nodesDF fuel2 currentDepth r →
        nodeOK ignore maxC maxDepth k n := by
  intro fuel
  induction fuel with
  | zero => intro e rp d mD r hd h; simp [getStructureF] at h
  | succ fuel ih =>
    intro e rp d mD r hd h
    cases e with
    | symlink nm => simp [getStructureF] at h
    | file nm sz =>
      rw [getStructureF] at h
      split at h
      · cases h
      · cases h
        intro fuel2 k n hm
        cases fuel2 with
        | zero => simp [nodesDF] at hm
        | succ fuel2 =>
          simp [nodesDF, childrenList, FileStructure.children] at hm
          obtain ⟨hk, hn⟩ := hm
          subst hk; subst hn
          refine ⟨hd, ?_, ?_, ?_⟩
          · intro hT; simp [FileStructure.type] at hT
          · intro cs s hc hs; simp [FileStructure.children] at hc
          · intro cs hc; simp [FileStructure.children] at hc
    | dir nm entries =>
      rw [getStructureF] at h
      split at h
      · cases h
      · cases h
        intro fuel2 k n hm
        cases fuel2 with
        | zero => simp [nodesDF] at hm
        | succ fuel2 =>
          by_cases hlt : d < mD
          · rw [if_pos hlt] at hm
            generalize hW : walkEntriesAux ignore maxC rp
                (fun entry entryRel =>
                  getStructureF ignore maxC fuel entry entryRel (d + 1) mD)
                entries [] ({} : Summary) = W at hm
            have hlen : W.1.length ≤ maxC := by
              rw [← hW]
              exact walk_length_le ignore maxC rp _ entries [] {} (by simp)
            have hsrc : ∀ c ∈ W.1, ∃ e1 ∈ entries, e1.isSymlink = false ∧
                ignore (childRel rp e1.name) = false ∧
                getStructureF ignore maxC fuel e1 (childRel rp e1.name) (d + 1) mD = .ok c := by
              intro c hc
              rw [← hW] at hc
              rcases walk_mem_source ignore maxC rp _ entries [] {} c hc with
                hacc | ⟨e1, he1, hsl1, hig1, hok1⟩
              · cases hacc
              · exact ⟨e1, he1, hsl1, hig1, hok1⟩
            rw [nodesDF] at hm
            rcases List.mem_cons.mp hm with hhead | htail
            · injection hhead with hk hn
              subst hn; subst hk
              refine ⟨hd, ?_, ?_, ?_⟩
              · intro _ hkm; exact absurd hkm (by omega)
              · intro cs s hc hs
                simp only [FileStructure.children] at hc
                simp only [FileStructure.summary] at hs
                split at hc
                · cases hc
                · injection hc with hc
                  subst hc
                  split at hs
                  · next hcond =>
                    rcases hcond with hcond | hcond
                    · exact absurd hcond (by omega)
                    · omega
                  · cases hs
              · intro cs hc c hcm
                simp only [FileStructure.children] at hc
                split at hc
                · cases hc
                · injection hc with hc
                  subst hc
                  rcases hsrc c hcm with ⟨e1, _, hsl1, hig1, hok1⟩
                  have hp := getStructureF_ok_path _ _ _ _ _ _ _ _ hok1
                  rw [hp, relOr_childRel]
                  exact hig1
            · rcases List.mem_flatMap.mp htail with ⟨c, hcm, hsub⟩
              have hcm2 : c ∈ W.1 := by
                apply mem_optChildren
                simpa [childrenList, FileStructure.children] using hcm
              rcases hsrc c hcm2 with ⟨e1, _, hsl1, hig1, hok1⟩
              exact ih e1 (childRel rp e1.name) (d + 1) mD c (by omega) hok1 fuel2 k n hsub
          · have hge : mD ≤ d := Nat.le_of_not_lt hlt
            rw [if_neg hlt] at hm
            rw [nodesDF] at hm
            simp only [childrenList, FileStructure.children, List.isEmpty_nil, if_pos,
              List.length_nil] at hm
            rcases List.mem_cons.mp hm with hhead | htail
            · injection hhead with hk hn
              subst hn; subst hk
              refine ⟨hd, ?_, ?_, ?_⟩
              · intro _ _
                refine ⟨?_, ?_⟩
                · simp [FileStructure.children]
                · simp only [FileStructure.summary]
                  rw [if_pos (Or.inl hge)]
              · intro cs s hc hs
                simp only [FileStructure.children] at hc
                cases hc
              · intro cs hc
                simp only [FileStructure.children] at hc
                cases hc
            · rcases List.mem_flatMap.mp htail with ⟨c, hcm, hsub⟩
              simp only [childrenList, FileStructure.children, Option.getD_none] at hcm
              cases hcm

/-- Exact characterization of the entry loop when the recursion cannot
fail (`hrec`): the final `children` length grows by one per qualifying
entry before the cap point, and the final summary adds, to the running
summary, the counts of every qualifying entry before the cap point plus
the counts of every entry after it (`entryCounts` zeroes symlinks, and
exclusion is not consulted after the cap point). -/
theorem capSplit_zero (q : FSEntry → Bool) (es : List FSEntry) :
    capSplit q 0 es = ([], es) := by
  cases es <;> simp [capSplit]

theorem walk_char (ignore : String → Bool) (maxC : Nat) (parentRel : String)
    (recur : FSEntry → String → Except String FileStructure)
    (hrec : ∀ (e : FSEntry) (rel : String), e.isSymlink = false → ignore rel = false →
      ∃ c, recur e rel = .ok c) :
    ∀ (es : List FSEntry) (acc : List FileStructure) (sum : Summary),
      acc.length ≤ maxC →
      (walkEntriesAux ignore maxC parentRel recur es acc sum).1.length =
          acc.length +
            ((capSplit (entryQual ignore parentRel) (maxC - acc.length) es).1.filter
              (entryQual ignore parentRel)).length ∧
      (walkEntriesAux ignore maxC parentRel recur es acc sum).2 =
        addS sum (addS
          (sumCounts ((capSplit (entryQual ignore parentRel) (maxC - acc.length) es).1.filter
            (entryQual ignore parentRel)))
          (sumCounts (capSplit (entryQual ignore parentRel) (maxC - acc.length) es).2)) := by
  intro es
  induction es with
  | nil =>
    intro acc sum hle
    constructor
    · simp [walk_nil, capSplit]
    · simp [walk_nil, capSplit, sumCounts, addS_zero]
  | cons e rest ih =>
    intro acc sum hle
    by_cases hc : maxC ≤ acc.length
    · have h0 : maxC - acc.length = 0 := by omega
      rw [walk_cons_cap _ _ _ _ _ _ _ _ hc, h0, capSplit_zero]
      obtain ⟨ihl, ihs⟩ := ih acc (countEntry sum e) hle
      rw [h0, capSplit_zero] at ihl ihs
      constructor
      · simpa using ihl
      · rw [ihs]
        simp only [List.filter_nil, sumCounts, List.foldr_nil, List.foldr_cons,
          countEntry_eq_addS, zero_addS, addS_zero, addS_assoc]
    · have hlt : acc.length < maxC := Nat.lt_of_not_le hc
      obtain ⟨k, hk⟩ : ∃ k, maxC - acc.length = k + 1 :=
        ⟨maxC - acc.length - 1, by omega⟩
      cases hig : ignore (childRel parentRel e.name) with
      | true =>
        have hq : entryQual ignore parentRel e = false := by
          simp [entryQual, hig]
        rw [walk_cons_ignored _ _ _ _ _ _ _ _ hc hig, hk]
        obtain ⟨ihl, ihs⟩ := ih acc sum hle
        rw [hk] at ihl ihs
        constructor
        · simpa [capSplit, hq, List.filter_cons] using ihl
        · rw [ihs]
          simp [capSplit, hq, List.filter_cons]
      | false =>
        cases hsl : e.isSymlink with
        | true =>
          have hq : entryQual ignore parentRel e = false := by
            simp [entryQual, hig, hsl]
          rw [walk_cons_symlink _ _ _ _ _ _ _ _ hc hig hsl, hk]
          obtain ⟨ihl, ihs⟩ := ih acc sum hle
          rw [hk] at ihl ihs
          constructor
          · simpa [capSplit, hq, List.filter_cons] using ihl
          · rw [ihs]
            simp [capSplit, hq, List.filter_cons]
        | false =>
          have hq : entryQual ignore parentRel e = true := by
            simp [entryQual, hig, hsl]
          obtain ⟨c, hok⟩ := hrec e (childRel parentRel e.name) hsl hig
          rw [walk_cons_ok _ _ _ _ _ _ _ _ _ hc hig hsl hok, hk]
          have hle2 : (acc ++ [c]).length ≤ maxC := by simp; omega
          obtain ⟨ihl, ihs⟩ := ih (acc ++ [c]) (countEntry sum e) hle2
          have hk2 : maxC - (acc ++ [c]).length = k := by simp; omega
          rw [hk2] at ihl ihs
          constructor
          · rw [ihl]
            simp [capSplit, hq, List.filter_cons]
            omega
          · rw [ihs]
            simp only [capSplit, hq, if_pos, List.filter_cons, if_true, sumCounts_cons,
              countEntry_eq_addS, addS_assoc]

/-! ### Concrete fixtures for counterexamples and witnesses -/

/-- An exclusion ruleset matching nothing. -/
def noIgnore : String → Bool := fun _ => false

/-- An exclusion ruleset matching exactly the relative path `"b"`. -/
def ignoreB : String → Bool := fun s => s == "b"

/-- A directory with two plain files. -/
def exTreeAB : FSEntry := .dir "r" [.file "a" 10, .file "b" 20]

/-- A directory with three plain files. -/
def exTreeABC : FSEntry := .dir "r" [.file "a" 10, .file "b" 20, .file "c" 30]

/-- A directory with one plain file, used at the depth limit. -/
def exTreeDepth : FSEntry := .dir "d" [.file "a" 5]

/-- The leaf node the walker produces for `.file "a" 10`. -/
def exNodeA : FileStructure := .node "a" "file" (some 10) none none

/-- The node the walker produces for `exTreeAB` with width cap 1: one
child, plus a summary counting both entries. -/
def exNodeCap : FileStructure := .node "r" "directory" none (some [exNodeA]) (some ⟨2, 0, 30⟩)

/-! ### Claims -/

/-- C1, counterexample: the claim says a node never has both `children`
and `summary` populated.  With width cap 1 and two files, the walker
returns a root node whose `children` is `some [exNodeA]` and whose
`summary` is `some ⟨2, 0, 30⟩` — both populated at once. -/
theorem c1_counterexample :
    getStructure noIgnore 1 exTreeAB "" 0 3 = .ok exNodeCap ∧
    exNodeCap.children.isSome = true ∧ exNodeCap.summary.isSome = true :=
  ⟨rfl, rfl, rfl⟩

/-- C1 (amended): a node of a `get_structure` result has both `children`
and `summary` populated only when the width cap was reached, in which
case `children` holds exactly `maxC` nodes; apart from that case the
claimed mutual exclusion holds. -/
theorem c1_amended (ignore : String → Bool) (maxC : Nat) (e : FSEntry) (relPath : String)
    (maxDepth : Nat) (res : FileStructure)
    (h : getStructure ignore maxC e relPath 0 maxDepth = .ok res) :
    ∀ (fuel k : Nat) (n : FileStructure) (cs : List FileStructure) (s : Summary),
      (k, n) ∈ nodesDF fuel 0 res → n.children = some cs → n.summary = some s →
      cs.length = maxC := by
  intro fuel k n cs s hm hc hs
  have H := getStructureF_inv ignore maxC (maxDepth - 0 + 1) e relPath 0 maxDepth res
    (Nat.zero_le _) h fuel k n hm
  exact H.2.2.1 cs s hc hs

/-- C1 witness: the amended statement applied to the width-cap-1
fixture: the doubly-populated node has exactly 1 child. -/
theorem c1_amended_witness :
    getStructure noIgnore 1 exTreeAB "" 0 3 = .ok exNodeCap ∧
    (0, exNodeCap) ∈ nodesDF 1 0 exNodeCap ∧
    exNodeCap.children = some [exNodeA] ∧ exNodeCap.summary = some ⟨2, 0, 30⟩ ∧
    [exNodeA].length = 1 :=
  ⟨rfl, List.Mem.head _, rfl, rfl,
    c1_amended noIgnore 1 exTreeAB "" 3 exNodeCap rfl 1 0 exNodeCap [exNodeA] ⟨2, 0, 30⟩
      (List.Mem.head _) rfl rfl⟩

/-- C4: in every `get_structure` result (root called at depth 0 with cap
`maxDepth`), no node's depth exceeds `maxDepth`, and a directory node at
exactly depth `maxDepth` carries a summary and no children.  (Recursive
calls pass `current_depth + 1`, which is how `nodesDF` assigns depths.) -/
theorem c4_depth_invariant (ignore : String → Bool) (maxC : Nat) (e : FSEntry)
    (relPath : String) (maxDepth : Nat) (res : FileStructure)
    (h : getStructure ignore maxC e relPath 0 maxDepth = .ok res) :
    ∀ (fuel k : Nat) (n : FileStructure), (k, n) ∈ nodesDF fuel 0 res →
      k ≤ maxDepth ∧
      (n.type = "directory" → k = maxDepth → n.children = none ∧ n.summary ≠ none) := by
  intro fuel k n hm
  have H := getStructureF_inv ignore maxC (maxDepth - 0 + 1) e relPath 0 maxDepth res
    (Nat.zero_le _) h fuel k n hm
  refine ⟨H.1, fun ht hk => ⟨(H.2.1 ht hk).1, ?_⟩⟩
  rw [(H.2.1 ht hk).2]
  simp

/-- C4 witness: a directory walked with depth cap 0 yields the root at
depth 0 = cap, with no children and a (zero) summary. -/
theorem c4_depth_invariant_witness :
    getStructure noIgnore 100 exTreeDepth "" 0 0 =
      .ok (.node "d" "directory" none none (some ⟨0, 0, 0⟩)) ∧
    (0, (FileStructure.node "d" "directory" none none (some ⟨0, 0, 0⟩))) ∈
      nodesDF 1 0 (.node "d" "directory" none none (some ⟨0, 0, 0⟩)) ∧
    (0 ≤ 0 ∧
      ((FileStructure.node "d" "directory" none none (some ⟨0, 0, 0⟩)).type = "directory" →
        0 = 0 →
        (FileStructure.node "d" "directory" none none (some ⟨0, 0, 0⟩)).children = none ∧
        (FileStructure.node "d" "directory" none none (some ⟨0, 0, 0⟩)).summary ≠ none)) :=
  ⟨rfl, List.Mem.head _,
    c4_depth_invariant noIgnore 100 exTreeDepth "" 0 _ rfl 1 0 _ (List.Mem.head _)⟩

/-- C2, counterexample: the claim says an entry matching the exclusion
ruleset is never counted in any summary, "including entries enumerated
after the width cap".  With width cap 1, the excluded file `"b"`
(`ignoreB "b" = true`) is enumerated after the cap and IS counted: the
summary reports 2 files and 30 bytes, including `b`'s 20 bytes. -/
theorem c2_counterexample :
    ignoreB "b" = true ∧
    getStructure ignoreB 1 exTreeAB "" 0 3 = .ok exNodeCap ∧
    exNodeCap.summary = some ⟨2, 0, 30⟩ :=
  ⟨rfl, rfl, rfl⟩

/-- C2 (amended): (1) a path matching the exclusion ruleset never
appears among any node's `children`; (2) excluded and symlink entries
enumerated before the width cap is reached are skipped entirely;
(3) a symlink entry enumerated after the cap is also not counted;
(4) but a non-symlink entry enumerated after the cap IS counted into the
summary by type and size, whether or not it is excluded; and (5) the
read tool answers the "ignored" message for every excluded path. -/
theorem c2_amended :
    (∀ (ignore : String → Bool) (maxC : Nat) (e : FSEntry) (relPath : String)
        (maxDepth : Nat) (res : FileStructure),
      getStructure ignore maxC e relPath 0 maxDepth = .ok res →
      ∀ (fuel k : Nat) (n : FileStructure) (cs : List FileStructure),
        (k, n) ∈ nodesDF fuel 0 res → n.children = some cs →
        ∀ c ∈ cs, ignore c.path = false) ∧
    (∀ (ignore : String → Bool) (maxC : Nat) (parentRel : String)
        (recur : FSEntry → String → Except String FileStructure)
        (e : FSEntry) (rest : List FSEntry) (acc : List FileStructure) (sum : Summary),
      ¬ maxC ≤ acc.length →
      (ignore (childRel parentRel e.name) = true ∨ e.isSymlink = true) →
      walkEntriesAux ignore maxC parentRel recur (e :: rest) acc sum =
        walkEntriesAux ignore maxC parentRel recur rest acc sum) ∧
    (∀ (ignore : String → Bool) (maxC : Nat) (parentRel : String)
        (recur : FSEntry → String → Except String FileStructure)
        (nm : String) (rest : List FSEntry) (acc : List FileStructure) (sum : Summary),
      maxC ≤ acc.length →
      walkEntriesAux ignore maxC parentRel recur (.symlink nm :: rest) acc sum =
        walkEntriesAux ignore maxC parentRel recur rest acc sum) ∧
    (∀ (ignore : String → Bool) (maxC : Nat) (parentRel : String)
        (recur : FSEntry → String → Except String FileStructure)
        (e : FSEntry) (rest : List FSEntry) (acc : List FileStructure) (sum : Summary),
      maxC ≤ acc.length →
      walkEntriesAux ignore maxC parentRel recur (e :: rest) acc sum =
        walkEntriesAux ignore maxC parentRel recur rest acc (addS sum (entryCounts e))) ∧
    (∀ (ignore : String → Bool) (fs : FS) (repo : List String) (p : String),
      ignore p = true →
      readFileTool ignore fs repo p =
        "File " ++ p ++ " is ignored based on .gitignore patterns") := by
  refine ⟨?_, ?_, ?_, ?_, ?_⟩
  · intro ignore maxC e relPath maxDepth res h fuel k n cs hm hc c hcm
    have H := getStructureF_inv ignore maxC (maxDepth - 0 + 1) e relPath 0 maxDepth res
      (Nat.zero_le _) h fuel k n hm
    exact H.2.2.2 cs hc c hcm
  · intro ignore maxC parentRel recur e rest acc sum hc hskip
    cases hig : ignore (childRel parentRel e.name) with
    | true => exact walk_cons_ignored _ _ _ _ _ _ _ _ hc hig
    | false =>
      have hsl : e.isSymlink = true := by
        rcases hskip with h | h
        · rw [hig] at h; cases h
        · exact h
      exact walk_cons_symlink _ _ _ _ _ _ _ _ hc hig hsl
  · intro ignore maxC parentRel recur nm rest acc sum hc
    exact walk_cons_cap _ _ _ _ _ _ _ _ hc
  · intro ignore maxC parentRel recur e rest acc sum hc
    rw [walk_cons_cap _ _ _ _ _ _ _ _ hc, countEntry_eq_addS]
  · intro ignore fs repo p h
    simp [readFileTool, h]

/-- C2 witness: each amended part at a concrete input — the width-cap-1
run whose only child `"a"` is not excluded; a pre-cap excluded entry
skipped; a post-cap symlink skipped; a post-cap excluded file counted;
and the ignored-path answer of the read tool. -/
theorem c2_amended_witness :
    (getStructure ignoreB 1 exTreeAB "" 0 3 = .ok exNodeCap ∧
      (0, exNodeCap) ∈ nodesDF 1 0 exNodeCap ∧
      exNodeCap.children = some [exNodeA] ∧ ignoreB exNodeA.path = false) ∧
    (walkEntriesAux ignoreB 1 "" (fun _ _ => .error "") [.file "b" 20] [] ⟨0, 0, 0⟩ =
      walkEntriesAux ignoreB 1 "" (fun _ _ => .error "") [] [] ⟨0, 0, 0⟩) ∧
    (walkEntriesAux ignoreB 1 "" (fun _ _ => .error "") [.symlink "s"] [exNodeA] ⟨1, 0, 10⟩ =
      walkEntriesAux ignoreB 1 "" (fun _ _ => .error "") [] [exNodeA] ⟨1, 0, 10⟩) ∧
    (walkEntriesAux ignoreB 1 "" (fun _ _ => .error "") [.file "b" 20] [exNodeA] ⟨1, 0, 10⟩ =
      walkEntriesAux ignoreB 1 "" (fun _ _ => .error "") [] [exNodeA]
        (addS ⟨1, 0, 10⟩ (entryCounts (.file "b" 20)))) ∧
    (readFileTool ignoreB (fun _ => none) ["r"] "b" =
      "File " ++ "b" ++ " is ignored based on .gitignore patterns") :=
  ⟨⟨rfl, List.Mem.head _, rfl,
      c2_amended.1 ignoreB 1 exTreeAB "" 3 exNodeCap rfl 1 0 exNodeCap [exNodeA]
        (List.Mem.head _) rfl exNodeA (List.Mem.head _)⟩,
    c2_amended.2.1 ignoreB 1 "" (fun _ _ => .error "") (.file "b" 20) [] [] ⟨0, 0, 0⟩
      (by decide) (Or.inl rfl),
    c2_amended.2.2.1 ignoreB 1 "" (fun _ _ => .error "") "s" [] [exNodeA] ⟨1, 0, 10⟩
      (by decide),
    c2_amended.2.2.2.1 ignoreB 1 "" (fun _ _ => .error "") (.file "b" 20) [] [exNodeA]
      ⟨1, 0, 10⟩ (by decide),
    c2_amended.2.2.2.2 ignoreB (fun _ => none) ["r"] "b" rfl⟩

/-- C3: the code's behavior at the failing input.  With width cap 2 and
three non-excluded files (10, 20, 30 bytes) in a directory expanded at
depth 0, exactly 2 entries appear in `children` — but the summary counts
all 3 files and all 60 bytes (the loop also counts every pre-cap entry),
not only the single entry beyond the cap (1 file, 30 bytes) that the
claim (and spec section 8) describes. -/
theorem c3_code_behavior :
    getStructure noIgnore 2 exTreeABC "" 0 3 =
      .ok (.node "r" "directory" none
        (some [.node "a" "file" (some 10) none none, .node "b" "file" (some 20) none none])
        (some ⟨3, 0, 60⟩)) ∧
    (⟨3, 0, 60⟩ : Summary).file_count + (⟨3, 0, 60⟩ : Summary).dir_count ≠ 1 ∧
    (⟨3, 0, 60⟩ : Summary).total_size ≠ 30 :=
  ⟨rfl, by decide, by decide⟩

/-- C5, counterexample: the claim says a directory truncated at the
depth limit has a summary counting all of its qualifying entries.  The
code never enumerates entries at the depth limit: walking a directory
holding one 5-byte file with `max_depth = 0` yields summary
`⟨0, 0, 0⟩`, not the claimed `⟨1, 0, 5⟩`. -/
theorem c5_counterexample :
    getStructure noIgnore 100 exTreeDepth "" 0 0 =
      .ok (.node "d" "directory" none none (some ⟨0, 0, 0⟩)) ∧
    (⟨0, 0, 0⟩ : Summary) ≠ ⟨1, 0, 5⟩ :=
  ⟨rfl, by decide⟩

/-- C5 (amended): a directory that is not expanded because
`current_depth >= max_depth` carries the **zero** summary — its entries
are never enumerated.  A directory expanded below the depth limit
carries a summary exactly when the width cap was reached, and that
summary counts every qualifying entry before the cap point plus every
non-symlink entry after it (exclusion is not consulted after the cap;
nothing is descended into for the counts). -/
theorem c5_amended :
    (∀ (ignore : String → Bool) (maxC : Nat) (nm : String) (entries : List FSEntry)
        (relPath : String) (d maxD : Nat),
      maxD ≤ d → (relPath = "" ∨ ignore relPath = false) →
      getStructure ignore maxC (.dir nm entries) relPath d maxD =
        .ok (.node (relOr relPath nm) "directory" none none (some ⟨0, 0, 0⟩))) ∧
    (∀ (ignore : String → Bool) (maxC : Nat) (nm : String) (entries : List FSEntry)
        (relPath : String) (d maxD : Nat),
      d < maxD → (relPath = "" ∨ ignore relPath = false) →
      (getStructure ignore maxC (.dir nm entries) relPath d maxD).map FileStructure.summary =
        .ok (if maxC ≤
              ((capSplit (entryQual ignore relPath) maxC entries).1.filter
                (entryQual ignore relPath)).length
            then some (addS
              (sumCounts ((capSplit (entryQual ignore relPath) maxC entries).1.filter
                (entryQual ignore relPath)))
              (sumCounts (capSplit (entryQual ignore relPath) maxC entries).2))
            else none)) := by
  constructor
  · intro ignore maxC nm entries relPath d maxD hge hrel
    have hcond : ¬(relPath ≠ "" ∧ ignore relPath = true) := by
      rcases hrel with h | h <;> simp [h]
    have hnlt : ¬ d < maxD := by omega
    unfold getStructure
    rw [getStructureF, if_neg hcond, if_neg hnlt]
    simp [hge]
  · intro ignore maxC nm entries relPath d maxD hlt hrel
    have hcond : ¬(relPath ≠ "" ∧ ignore relPath = true) := by
      rcases hrel with h | h <;> simp [h]
    have hfuel : 1 ≤ maxD - d := by omega
    have hrec : ∀ (e1 : FSEntry) (rel : String), e1.isSymlink = false →
        ignore rel = false →
        ∃ c, getStructureF ignore maxC (maxD - d) e1 rel (d + 1) maxD = .ok c :=
      fun e1 rel h1 h2 =>
        getStructureF_isOk ignore maxC (maxD - d) e1 rel (d + 1) maxD hfuel h1 h2
    obtain ⟨hL, hS⟩ := walk_char ignore maxC relPath
      (fun entry entryRel => getStructureF ignore maxC (maxD - d) entry entryRel (d + 1) maxD)
      hrec entries [] {} (by simp)
    have hnd : ¬ maxD ≤ d := by omega
    unfold getStructure
    rw [getStructureF, if_neg hcond, if_pos hlt]
    simp only [Except.map, FileStructure.summary]
    rw [hL, hS]
    simp [hnd, zero_addS]

/-- C5 witness: the depth-limit part on the one-file directory at cap 0,
and the width-cap part on the two-file directory with cap 1 (summary
`⟨2, 0, 30⟩`: the pre-cap qualifying file plus the post-cap file). -/
theorem c5_amended_witness :
    (getStructure noIgnore 100 exTreeDepth "" 0 0 =
      .ok (.node (relOr "" "d") "directory" none none (some ⟨0, 0, 0⟩))) ∧
    ((getStructure noIgnore 1 exTreeAB "" 0 3).map FileStructure.summary =
      .ok (some ⟨2, 0, 30⟩)) :=
  ⟨c5_amended.1 noIgnore 100 "d" [.file "a" 5] "" 0 0 (Nat.le_refl 0) (Or.inl rfl),
    (c5_amended.2 noIgnore 1 "r" [.file "a" 10, .file "b" 20] "" 0 3
      (by decide) (Or.inl rfl)).trans rfl⟩

/-- C6: a relative file path whose resolution against the root escapes
the resolved repository root makes `read_file` return the structured
path-escape error result (error flag set, message naming the condition),
never the file's contents; the model is total, mirroring the source's
all-enclosing try/except (no exception propagates). -/
theorem c6_path_escape (fs : FS) (repo : List String) (p : String)
    (h : (resolveSegs repo).isPrefixOf (resolveSegs (joinPath repo p)) = false) :
    read_file fs repo p =
      ⟨"Error: Attempted to access file outside repository: " ++ p, true⟩ := by
  simp [read_file, h]

/-- C6 witness: `../secret.txt` from root `/home/user/repo` resolves to
`/home/user/secret.txt`, outside the root, and the reader answers the
path-escape error. -/
theorem c6_path_escape_witness :
    (resolveSegs ["home", "user", "repo"]).isPrefixOf
        (resolveSegs (joinPath ["home", "user", "repo"] "../secret.txt")) = false ∧
    read_file (fun _ => none) ["home", "user", "repo"] "../secret.txt" =
      ⟨"Error: Attempted to access file outside repository: " ++ "../secret.txt", true⟩ :=
  ⟨by decide, c6_path_escape (fun _ => none) ["home", "user", "repo"] "../secret.txt"
    (by decide)⟩

/-- A filesystem for `initialize_repo` runs: `/home` and `/home/sub` are
directories. -/
def fsHome : FS := fun q =>
  if q = ["home", "sub"] then some .dir
  else if q = ["home"] then some .dir
  else none

/-- C7: the code's behavior at the failing input.  `initialize_repo`
explicitly rejects `""`, `"."` and `"./"`, but it resolves the path
**before** testing `is_absolute()`, and `Path.resolve()` always returns
an absolute path — so the relative path `"sub"` (not starting with `/`)
is resolved against the working directory `/home` and accepted, where
the claim (and the dead check's own error message) says every
non-absolute path must be rejected. -/
theorem c7_relative_path_accepted :
    startsWithSlash "sub" = false ∧
    initialize_repo fsHome ["home"] "sub" = .ok ⟨true, ["home", "sub"]⟩ ∧
    initialize_repo fsHome ["home"] "" = .error "Repository path must be an absolute path" ∧
    initialize_repo fsHome ["home"] "." = .error "Repository path must be an absolute path" ∧
    initialize_repo fsHome ["home"] "./" = .error "Repository path must be an absolute path" :=
  ⟨rfl, rfl, rfl, rfl, rfl⟩

/-- C8: a readable text file (contained, existing, within the 1 MiB size
cap, decodable) of exactly 1000 lines is returned in full — the content
is precisely the 1000 joined lines with no truncation notice — while a
file of 1001 or more lines is limited to its first 1000 lines followed
by the truncation notice naming the limit 1000 (the reported line count
stops at 1001, where the reading loop breaks). -/
theorem c8_line_limit (fs : FS) (repo : List String) (p : String) (f : RFile)
    (hin : (resolveSegs repo).isPrefixOf (resolveSegs (joinPath repo p)) = true)
    (hfs : fs (resolveSegs (joinPath repo p)) = some (.file f))
    (hsize : f.size ≤ 1048576) (hbin : f.binary = false) :
    (f.lines.length = 1000 →
      read_file fs repo p =
        ⟨"File: " ++ p ++ "\nLanguage: " ++ detect_language p ++ "\nSize: " ++
          toString f.size ++ " bytes\nTotal lines: " ++ toString 1000 ++ "\n\n" ++
          String.intercalate "\n" f.lines, false⟩) ∧
    (1001 ≤ f.lines.length →
      read_file fs repo p =
        ⟨"File: " ++ p ++ "\nLanguage: " ++ detect_language p ++ "\nSize: " ++
          toString f.size ++ " bytes\nTotal lines: " ++ toString 1001 ++ "\n\n" ++
          (String.intercalate "\n" (f.lines.take 1000) ++
            "\n\n[File truncated after 1000 lines]"), false⟩) := by
  have hnot : ¬ ((resolveSegs repo).isPrefixOf (resolveSegs (joinPath repo p)) = false) := by
    simp [hin]
  have hns : ¬ 1048576 < f.size := by omega
  constructor
  · intro hlen
    have h1 : min f.lines.length (1000 + 1) = 1000 := by omega
    have h2 : ¬ 1000 < f.lines.length := by omega
    have h3 : f.lines.take 1000 = f.lines := List.take_of_length_le (by omega)
    simp [read_file, hfs, hnot, hns, hbin, h1, h2, h3]
  · intro hlen
    have h1 : min f.lines.length (1000 + 1) = 1001 := by omega
    have h2 : 1000 < f.lines.length := by omega
    simp [read_file, hfs, hnot, hns, hbin, h1, h2]

/-- A 1000-line text file fixture. -/
def ex1000 : RFile := ⟨5, List.replicate 1000 "x", false⟩

/-- A 1001-line text file fixture. -/
def ex1001 : RFile := ⟨6, List.replicate 1001 "y", false⟩

/-- A filesystem holding both line-count fixtures under root `/r`. -/
def fsDocs : FS := fun q =>
  if q = ["r", "a.txt"] then some (.file ex1000)
  else if q = ["r", "b.txt"] then some (.file ex1001)
  else none

set_option maxRecDepth 10000 in
/-- C8 witness: both halves applied to concrete 1000- and 1001-line
files. -/
theorem c8_line_limit_witness :
    ((resolveSegs ["r"]).isPrefixOf (resolveSegs (joinPath ["r"] "a.txt")) = true ∧
      fsDocs (resolveSegs (joinPath ["r"] "a.txt")) = some (.file ex1000) ∧
      ex1000.size ≤ 1048576 ∧ ex1000.binary = false ∧ ex1000.lines.length = 1000 ∧
      read_file fsDocs ["r"] "a.txt" =
        ⟨"File: " ++ "a.txt" ++ "\nLanguage: " ++ detect_language "a.txt" ++ "\nSize: " ++
          toString ex1000.size ++ " bytes\nTotal lines: " ++ toString 1000 ++ "\n\n" ++
          String.intercalate "\n" ex1000.lines, false⟩) ∧
    ((resolveSegs ["r"]).isPrefixOf (resolveSegs (joinPath ["r"] "b.txt")) = true ∧
      fsDocs (resolveSegs (joinPath ["r"] "b.txt")) = some (.file ex1001) ∧
      ex1001.size ≤ 1048576 ∧ ex1001.binary = false ∧ 1001 ≤ ex1001.lines.length ∧
      read_file fsDocs ["r"] "b.txt" =
        ⟨"File: " ++ "b.txt" ++ "\nLanguage: " ++ detect_language "b.txt" ++ "\nSize: " ++
          toString ex1001.size ++ " bytes\nTotal lines: " ++ toString 1001 ++ "\n\n" ++
          (String.intercalate "\n" (ex1001.lines.take 1000) ++
            "\n\n[File truncated after 1000 lines]"), false⟩) :=
  ⟨⟨by decide, rfl, by decide, rfl, by decide,
      (c8_line_limit fsDocs ["r"] "a.txt" ex1000 (by decide) rfl (by decide) rfl).1
        (by decide)⟩,
    ⟨by decide, rfl, by decide, rfl, by decide,
      (c8_line_limit fsDocs ["r"] "b.txt" ex1001 (by decide) rfl (by decide) rfl).2
        (by decide)⟩⟩

/-- C9: the size formatter uses the units `B`/`KB`/`MB`/`GB` with binary
1024 scaling and one decimal place; in particular 1024 bytes formats as
`1.0 KB`, 0 bytes as `0.0 B`, and 1048576 bytes as `1.0 MB`. -/
theorem c9_format_size_values :
    fmtUnits = ["B", "KB", "MB", "GB"] ∧
    format_size 1024 = "1.0 KB" ∧
    format_size 0 = "0.0 B" ∧
    format_size 1048576 = "1.0 MB" :=
  ⟨rfl, by decide, by decide, by decide⟩

/-- C10: when a directory node carries a summary, the formatter renders
only the directory line and the `Contains:` line — whatever sits in
`children` (even a populated list, as produced when the width cap was
hit) is entirely absent from the formatted output. -/
theorem c10_summary_suppresses_children (p : String) (sz : Option Nat)
    (chs : Option (List FileStructure)) (su : Summary) :
    format_structure (.node p "directory" sz chs (some su)) =
      String.intercalate "\n"
        [indentOf 0 ++ "ðŸ“ " ++ p ++ "/",
         indentOf 0 ++ "   Contains: " ++ toString su.file_count ++ " files, " ++
           toString su.dir_count ++ " directories, " ++ format_size su.total_size] := by
  rw [format_structure, formatItem, if_pos rfl]
